import Mathlib

/-!
Verification of the VFS syscall layer (src/namev.c, src/vfs_syscall.c).

The embedding is a shallow, executable model of the layer.  Syscalls are
state-passing functions on `SysState`; every reference-count operation,
namespace-lock operation and driver invocation is recorded in an event
trace, so that refcount conservation, lock discipline and release/driver
ordering can be stated as properties of the trace.  Per-filesystem drivers
are external to the layer and are modelled as oracle functions supplied in
`DriverFS`; kernel assertions (KASSERT) that can fire are modelled by the
`Res.crash` outcome.  Pointers handed out by the vnode and open-file caches
are assumed non-null, as those caches guarantee.
-/

/-! ## Constants (fs/config values and errno codes) -/

def NFILES : Int := 32
def NAME_LEN : Nat := 28
def MAXPATHLEN : Nat := 1024

def EPERM : Int := 1
def ENOENT : Int := 2
def EBADF : Int := 9
def EEXIST : Int := 17
def ENOTDIR : Int := 20
def EISDIR : Int := 21
def EINVAL : Int := 22
def EMFILE : Int := 24
def ENAMETOOLONG : Int := 36
def ENOTEMPTY : Int := 39

def SEEK_SET : Int := 0
def SEEK_CUR : Int := 1
def SEEK_END : Int := 2

def FMODE_READ : Nat := 1
def FMODE_WRITE : Nat := 2
def FMODE_APPEND : Nat := 4

def S_IFCHR : Int := 0x2000
def S_IFDIR : Int := 0x4000
def S_IFBLK : Int := 0x6000
def S_IFREG : Int := 0x8000

def O_CREAT : Nat := 0x100

/-- sizeof(dirent_t): returned by do_getdent on progress; exact value immaterial. -/
def SIZEOF_DIRENT : Int := 64

/-- The vn_mode field always holds one of the four S_IF constants, so the
S_ISDIR mask test of the source is equality with S_IFDIR. -/
def S_ISDIR (m : Int) : Bool := m == S_IFDIR

/-! ## Data model -/

abbrev VnodeId := Nat
abbrev FileId := Nat

/-- Attributes of a vnode visible to this layer: mode, length, and which
entries of the driver operations table are present.  Operations that the
source invokes unconditionally (read, write, readdir, create, mkdir, mknod,
unlink, stat) are modelled as always present; the three whose presence the
source tests or asserts are flags here. -/
structure VnAttr where
  vn_mode : Int
  vn_len : Int
  has_lookup : Bool
  has_rmdir : Bool
  has_link : Bool
deriving DecidableEq

/-- An open file object: access mode bits, byte cursor, underlying vnode. -/
structure FileObj where
  f_mode : Nat
  f_pos : Int
  f_vnode : VnodeId
deriving DecidableEq

/-- Driver oracle: the per-filesystem vnode operations this layer consumes.
Name arguments are the first `len` characters of the C name buffer. -/
structure DriverFS where
  lookupFn : VnodeId → List Char → Except Int VnodeId
  createFn : VnodeId → List Char → Except Int VnodeId
  mknodFn : VnodeId → List Char → Int → Int → Int
  mkdirFn : VnodeId → List Char → Int
  rmdirFn : VnodeId → List Char → Int
  unlinkFn : VnodeId → List Char → Int
  linkFn : VnodeId → VnodeId → List Char → Int
  readFn : VnodeId → Int → Nat → Int
  writeFn : VnodeId → Int → Nat → Int
  readdirFn : VnodeId → Int → Int

/-- Whole-system state seen by a syscall: vnode attributes, the driver,
the root vnode, and the current process (cwd and FD table).  The FD table
is total on Int so that the out-of-bounds accesses the C source can make
are representable: indices outside [0, NFILES) read whatever the adjacent
memory holds. -/
structure SysState where
  vn : VnodeId → VnAttr
  fs : DriverFS
  vfs_root : VnodeId
  p_cwd : VnodeId
  p_files : Int → Option FileId
  files : FileId → FileObj

/-! ## Outcomes and event traces -/

/-- Driver operation tags, for trace events. -/
inductive DOp where
  | dlookup | dcreate | dmknod | dmkdir | drmdir | dunlink | dlink
  | dread | dwrite | dreaddir
deriving DecidableEq

/-- Trace events: vnode reference acquire/release, open-file reference
acquire/release, namespace-lock acquire/release, driver invocation. -/
inductive VEvent where
  | vref (v : VnodeId)
  | vput (v : VnodeId)
  | fget (f : FileId)
  | fput (f : FileId)
  | lock
  | unlock
  | dcall (op : DOp) (v : VnodeId)
deriving DecidableEq

/-- Outcome of a run: either a normal return or a fired kernel assertion
(KASSERT) / fatal memory error. -/
inductive Res (α : Type) where
  | crash : Res α
  | ret : α → Res α
deriving DecidableEq

instance {ε α : Type} [DecidableEq ε] [DecidableEq α] : DecidableEq (Except ε α) :=
  fun x y =>
    match x, y with
    | .ok a, .ok b => if h : a = b then .isTrue (by rw [h]) else .isFalse (by simp [h])
    | .error a, .error b => if h : a = b then .isTrue (by rw [h]) else .isFalse (by simp [h])
    | .ok _, .error _ => .isFalse (by simp)
    | .error _, .ok _ => .isFalse (by simp)

/-- Net vnode-refcount change attributable to a trace, for one vnode. -/
def netV (tr : List VEvent) (v : VnodeId) : Int :=
  match tr with
  | [] => 0
  | .vref w :: t => (if w = v then 1 else 0) + netV t v
  | .vput w :: t => (if w = v then (-1 : Int) else 0) + netV t v
  | _ :: t => netV t v

/-- Net open-file-refcount change attributable to a trace, for one file. -/
def netF (tr : List VEvent) (f : FileId) : Int :=
  match tr with
  | [] => 0
  | .fget g :: t => (if g = f then 1 else 0) + netF t f
  | .fput g :: t => (if g = f then (-1 : Int) else 0) + netF t f
  | _ :: t => netF t f

/-- Namespace-mutating driver operations. -/
def isMutOp : DOp → Bool
  | .dcreate | .dmknod | .dmkdir | .drmdir | .dunlink | .dlink => true
  | _ => false

def mutLockedAux : Bool → List VEvent → Bool
  | _, [] => true
  | _, .lock :: t => mutLockedAux true t
  | _, .unlock :: t => mutLockedAux false t
  | held, .dcall op _ :: t => (!isMutOp op || held) && mutLockedAux held t
  | held, _ :: t => mutLockedAux held t

/-- Every namespace-mutating driver call in the trace happens while the
vfsm namespace lock is held. -/
def mutLocked (tr : List VEvent) : Bool := mutLockedAux false tr

/-! ## State update helpers -/

def setSlot (s : SysState) (fd : Int) (v : Option FileId) : SysState :=
  { s with p_files := fun i => if i = fd then v else s.p_files i }

def setFilePos (s : SysState) (f : FileId) (p : Int) : SysState :=
  { s with files := fun g => if g = f then { s.files g with f_pos := p } else s.files g }

/-! ## Single-component lookup (src/namev.c, lookup) -/

/-- Embedding of lookup() from src/namev.c.  The name argument is the whole
C string from the name pointer (in dir_namev this is the remaining path
suffix), len the component length; the strcmp test therefore compares the
whole remaining string against ".".  When the directory has no lookup
operation the KASSERT on vn_ops->lookup fires, so the source's final
"else return -ENOTDIR" is dead code: this is `Res.crash`.  A successful
driver lookup acquires a reference on the child (spec section 6), recorded
as a vref event. -/
def lookup (s : SysState) (dir : VnodeId) (name : List Char) (len : Nat) :
    Res (Except Int VnodeId × List VEvent) :=
  if !S_ISDIR ((s.vn dir).vn_mode) then .ret (.error (-ENOTDIR), [])
  else if len > NAME_LEN then .ret (.error (-ENAMETOOLONG), [])
  else if name = ['.'] ∨ len = 0 then .ret (.ok dir, [.vref dir])
  else if (s.vn dir).has_lookup then
    match s.fs.lookupFn dir (name.take len) with
    | .error e => .ret (.error e, [.dcall .dlookup dir])
    | .ok child => .ret (.ok child, [.dcall .dlookup dir, .vref child])
  else .crash

/-! ## Full-path resolution (src/namev.c, dir_namev / open_namev) -/

/-- strchr on the path suffix: splits at the first slash, returning the
segment before it and the remainder after it, or none when no slash. -/
def breakSlash : List Char → Option (List Char × List Char)
  | [] => none
  | c :: rest =>
    if c = '/' then some ([], rest)
    else
      match breakSlash rest with
      | none => none
      | some (seg, rest2) => some (c :: seg, rest2)

/-- Loop body of dir_namev: walk the remaining suffix, resolving every
component that is followed by a slash; the last component (no slash after
it) is left as the basename.  Fuel is structural recursion bookkeeping;
each iteration consumes at least one character, so the caller passes
length + 1 fuel and the 0 case is unreachable.  The source checks
S_ISDIR at the top of every iteration, before strchr. -/
def dnLoop (s : SysState) :
    Nat → VnodeId → List Char → Res (Except Int (VnodeId × List Char) × List VEvent)
  | 0, _, _ => .crash
  | _ + 1, dir, [] => .ret (.ok (dir, []), [])
  | fuel + 1, dir, c :: rest =>
    if !S_ISDIR ((s.vn dir).vn_mode) then .ret (.error (-ENOTDIR), [.vput dir])
    else
      match breakSlash (c :: rest) with
      | none => .ret (.ok (dir, c :: rest), [])
      | some (seg, rest2) =>
        if seg.length > NAME_LEN then .ret (.error (-ENAMETOOLONG), [.vput dir])
        else
          match lookup s dir (c :: rest) seg.length with
          | .crash => .crash
          | .ret (.error e, tr) => .ret (.error e, tr ++ [.vput dir])
          | .ret (.ok d2, tr) =>
            match dnLoop s fuel d2 rest2 with
            | .crash => .crash
            | .ret (res, tr2) => .ret (res, tr ++ [.vput dir] ++ tr2)

/-- Embedding of dir_namev() from src/namev.c.  Returns the parent vnode,
the basename and its length; the trace starts with the vref on the starting
directory.  The source checks the MAXPATHLEN bound before the emptiness
test; a leading slash selects the root and is consumed, otherwise the
caller-supplied base or, failing that, the process cwd is used. -/
def dir_namev (s : SysState) (path : List Char) (base : Option VnodeId) :
    Res (Except Int (VnodeId × List Char × Nat) × List VEvent) :=
  if path.length > MAXPATHLEN then .ret (.error (-ENAMETOOLONG), [])
  else if path.length = 0 then .ret (.error (-EINVAL), [])
  else
    let start := if path.head? = some '/' then s.vfs_root else base.getD s.p_cwd
    let rest := if path.head? = some '/' then path.tail else path
    match dnLoop s (rest.length + 1) start rest with
    | .crash => .crash
    | .ret (.error e, tr) => .ret (.error e, .vref start :: tr)
    | .ret (.ok (d, nm), tr) => .ret (.ok (d, nm, nm.length), .vref start :: tr)

/-- Embedding of open_namev() from src/namev.c.  Resolves to an existing
target, creating it under the vfsm namespace lock when O_CREAT is set.
The lock is taken after the parent directory check and released on every
exit of the locked window. -/
def open_namev (s : SysState) (path : List Char) (flag : Nat) (base : Option VnodeId) :
    Res (Except Int VnodeId × List VEvent) :=
  match dir_namev s path base with
  | .crash => .crash
  | .ret (.error e, tr) => .ret (.error e, tr)
  | .ret (.ok (parent, nm, len), tr) =>
    if !S_ISDIR ((s.vn parent).vn_mode) then .ret (.error (-ENOTDIR), tr ++ [.vput parent])
    else
      match lookup s parent nm len with
      | .crash => .crash
      | .ret (.ok v, tr2) => .ret (.ok v, tr ++ [.lock] ++ tr2 ++ [.vput parent, .unlock])
      | .ret (.error e, tr2) =>
        if flag &&& O_CREAT ≠ 0 then
          match s.fs.createFn parent (nm.take len) with
          | .error i =>
            .ret (.error i, tr ++ [.lock] ++ tr2 ++ [.dcall .dcreate parent, .vput parent, .unlock])
          | .ok v =>
            .ret (.ok v,
              tr ++ [.lock] ++ tr2 ++ [.dcall .dcreate parent, .vref v, .vput parent, .unlock])
        else .ret (.error e, tr ++ [.lock] ++ tr2 ++ [.vput parent, .unlock])

/-! ## FD-based syscalls (src/vfs_syscall.c) -/

/-- Embedding of do_lseek().  The source range check is fd < 0 || fd > NFILES
(note: NFILES itself passes), then the whence check, then fget; each whence
branch validates the resulting offset, stores it, fputs, and the function
returns the (updated) f_pos. -/
def do_lseek (s : SysState) (fd : Int) (offset : Int) (whence : Int) :
    Res (Int × SysState × List VEvent) :=
  if fd < 0 ∨ fd > NFILES ∨ s.p_files fd = none then .ret (-EBADF, s, [])
  else if whence ≠ SEEK_SET ∧ whence ≠ SEEK_CUR ∧ whence ≠ SEEK_END then .ret (-EINVAL, s, [])
  else
    match s.p_files fd with
    | none => .crash
    | some f =>
      let fo := s.files f
      if whence = SEEK_SET then
        if offset < 0 then .ret (-EINVAL, s, [.fget f, .fput f])
        else
          let s2 := setFilePos s f offset
          .ret (((s2.files f).f_pos), s2, [.fget f, .fput f])
      else if whence = SEEK_CUR then
        if fo.f_pos + offset < 0 then .ret (-EINVAL, s, [.fget f, .fput f])
        else
          let s2 := setFilePos s f (fo.f_pos + offset)
          .ret (((s2.files f).f_pos), s2, [.fget f, .fput f])
      else
        if (s.vn fo.f_vnode).vn_len + offset < 0 then .ret (-EINVAL, s, [.fget f, .fput f])
        else
          let s2 := setFilePos s f ((s.vn fo.f_vnode).vn_len + offset)
          .ret (((s2.files f).f_pos), s2, [.fget f, .fput f])

/-- Embedding of do_read().  The source guard reads the FD-table slot before
testing the range, and uses fd >= NFILES for the upper bound. -/
def do_read (s : SysState) (fd : Int) (nbytes : Nat) :
    Res (Int × SysState × List VEvent) :=
  if s.p_files fd = none ∨ fd < 0 ∨ fd ≥ NFILES then .ret (-EBADF, s, [])
  else
    match s.p_files fd with
    | none => .crash
    | some f =>
      let fo := s.files f
      if fo.f_mode &&& FMODE_READ = 0 then .ret (-EBADF, s, [.fget f, .fput f])
      else if S_ISDIR ((s.vn fo.f_vnode).vn_mode) then .ret (-EISDIR, s, [.fget f, .fput f])
      else
        let bytes := s.fs.readFn fo.f_vnode fo.f_pos nbytes
        if bytes < 0 then .ret (bytes, s, [.fget f, .dcall .dread fo.f_vnode, .fput f])
        else
          .ret (bytes, setFilePos s f (fo.f_pos + bytes),
            [.fget f, .dcall .dread fo.f_vnode, .fput f])

/-- Embedding of do_write().  The source guard reads the FD-table slot before
testing the range and uses fd > NFILES for the upper bound, so fd = NFILES
reaches the table.  With FMODE_APPEND the source first seeks to the end via
do_lseek(fd, NULL, SEEK_END), NULL converting to offset 0. -/
def do_write (s : SysState) (fd : Int) (nbytes : Nat) :
    Res (Int × SysState × List VEvent) :=
  if s.p_files fd = none ∨ fd < 0 ∨ fd > NFILES then .ret (-EBADF, s, [])
  else
    match s.p_files fd with
    | none => .crash
    | some f =>
      let fo := s.files f
      if fo.f_mode &&& FMODE_WRITE = 0 then .ret (-EBADF, s, [.fget f, .fput f])
      else
        match
          (if fo.f_mode &&& FMODE_APPEND ≠ 0 then do_lseek s fd 0 SEEK_END
           else .ret (0, s, [])) with
        | .crash => .crash
        | .ret (endv, s1, trL) =>
          if endv < 0 then .ret (endv, s1, .fget f :: trL ++ [.fput f])
          else
            let fo1 := s1.files f
            let written := s1.fs.writeFn fo1.f_vnode fo1.f_pos nbytes
            if written < 0 then
              .ret (written, s1, .fget f :: trL ++ [.dcall .dwrite fo1.f_vnode, .fput f])
            else
              .ret (written, setFilePos s1 f (fo1.f_pos + written),
                .fget f :: trL ++ [.dcall .dwrite fo1.f_vnode, .fput f])

/-- Embedding of do_close().  Range check is fd < 0 || fd > NFILES; then
fget, a NULL test, two fputs and the slot is cleared. -/
def do_close (s : SysState) (fd : Int) : Res (Int × SysState × List VEvent) :=
  if fd < 0 ∨ fd > NFILES then .ret (-EBADF, s, [])
  else
    match s.p_files fd with
    | none => .ret (-EBADF, s, [])
    | some f => .ret (0, setSlot s fd none, [.fget f, .fput f, .fput f])

/-- Modelled from the spec: get_empty_fd, the external per-process FD-table
allocator (spec sections 1 and 2 list it as an external collaborator; its
source is not in the repository excerpt).  It returns the lowest free
descriptor index, or -EMFILE when the table is full; zero is a valid
descriptor value. -/
def get_empty_fd (s : SysState) : Int :=
  match (List.range 32).find? (fun i => s.p_files (Int.ofNat i) = none) with
  | some i => Int.ofNat i
  | none => -EMFILE

/-- Embedding of do_dup().  The source treats a zero return of get_empty_fd
as the failure case; a nonzero return (including the negative -EMFILE
return of a full table) is used as the new descriptor index. -/
def do_dup (s : SysState) (fd : Int) : Res (Int × SysState × List VEvent) :=
  if s.p_files fd = none ∨ fd < 0 ∨ fd > NFILES then .ret (-EBADF, s, [])
  else
    match s.p_files fd with
    | none => .crash
    | some f =>
      let dupfd := get_empty_fd s
      if dupfd = 0 then .ret (-EMFILE, s, [.fget f, .fput f])
      else .ret (dupfd, setSlot s dupfd (some f), [.fget f])

/-- Embedding of do_dup2().  When nfd is occupied and differs from ofd the
source closes it first, then stores a freshly fget-ed reference at nfd. -/
def do_dup2 (s : SysState) (ofd : Int) (nfd : Int) : Res (Int × SysState × List VEvent) :=
  if s.p_files ofd = none ∨ ofd < 0 ∨ ofd > NFILES then .ret (-EBADF, s, [])
  else if nfd < 0 ∨ nfd > NFILES then .ret (-EBADF, s, [])
  else if nfd ≠ ofd then
    match
      (if (s.p_files nfd).isSome then do_close s nfd else .ret (0, s, [])) with
    | .crash => .crash
    | .ret (retc, s1, tr1) =>
      if retc < 0 then .ret (retc, s1, tr1)
      else
        match s1.p_files ofd with
        | none => .ret (nfd, setSlot s1 nfd none, tr1)
        | some f => .ret (nfd, setSlot s1 nfd (some f), tr1 ++ [.fget f])
  else .ret (nfd, s, [])

/-- Embedding of do_getdent().  Range check uses fd > NFILES; the source
adds the readdir return to f_pos before testing it for an error. -/
def do_getdent (s : SysState) (fd : Int) : Res (Int × SysState × List VEvent) :=
  if fd < 0 ∨ fd > NFILES ∨ s.p_files fd = none then .ret (-EBADF, s, [])
  else
    match s.p_files fd with
    | none => .crash
    | some f =>
      let fo := s.files f
      if !S_ISDIR ((s.vn fo.f_vnode).vn_mode) then .ret (-ENOTDIR, s, [.fget f, .fput f])
      else
        let bytes := s.fs.readdirFn fo.f_vnode fo.f_pos
        let s2 := setFilePos s f (fo.f_pos + bytes)
        if bytes ≤ 0 then .ret (bytes, s2, [.fget f, .dcall .dreaddir fo.f_vnode, .fput f])
        else .ret (SIZEOF_DIRENT, s2, [.fget f, .dcall .dreaddir fo.f_vnode, .fput f])

/-! ## Path-based syscalls (src/vfs_syscall.c) -/

/-- Embedding of do_mknod().  After a successful dir_namev the basename
length check returns -ENAMETOOLONG without releasing the parent reference;
when the basename does not already exist the source releases the parent
reference first and only then invokes the driver mknod operation on it.
The KASSERT on vn_ops->lookup fires (crash) when the parent lacks a lookup
operation. -/
def do_mknod (s : SysState) (path : List Char) (mode : Int) (devid : Int) :
    Res (Int × SysState × List VEvent) :=
  if path.length > MAXPATHLEN then .ret (-ENAMETOOLONG, s, [])
  else if mode ≠ S_IFCHR ∧ mode ≠ S_IFBLK then .ret (-EINVAL, s, [])
  else
    match dir_namev s path none with
    | .crash => .crash
    | .ret (.error e, tr) => .ret (e, s, tr)
    | .ret (.ok (parent, nm, len), tr) =>
      if len > NAME_LEN then .ret (-ENAMETOOLONG, s, tr)
      else if !S_ISDIR ((s.vn parent).vn_mode) then .ret (-ENOTDIR, s, tr ++ [.vput parent])
      else if !(s.vn parent).has_lookup then .crash
      else
        match lookup s parent nm len with
        | .crash => .crash
        | .ret (.ok r, tr2) => .ret (-EEXIST, s, tr ++ tr2 ++ [.vput parent, .vput r])
        | .ret (.error _, tr2) =>
          .ret (s.fs.mknodFn parent (nm.take len) mode devid, s,
            tr ++ tr2 ++ [.vput parent, .dcall .dmknod parent])

/-- Embedding of do_mkdir().  Unlike do_mknod, the basename length check
releases the parent reference, and the parent reference is released after
the driver mkdir call. -/
def do_mkdir (s : SysState) (path : List Char) : Res (Int × SysState × List VEvent) :=
  if path.length > MAXPATHLEN then .ret (-ENAMETOOLONG, s, [])
  else
    match dir_namev s path none with
    | .crash => .crash
    | .ret (.error e, tr) => .ret (e, s, tr)
    | .ret (.ok (parent, nm, len), tr) =>
      if !S_ISDIR ((s.vn parent).vn_mode) then .ret (-ENOTDIR, s, tr ++ [.vput parent])
      else if len > NAME_LEN then .ret (-ENAMETOOLONG, s, tr ++ [.vput parent])
      else if !(s.vn parent).has_lookup then .crash
      else
        match lookup s parent nm len with
        | .crash => .crash
        | .ret (.ok r, tr2) => .ret (-EEXIST, s, tr ++ tr2 ++ [.vput parent, .vput r])
        | .ret (.error _, tr2) =>
          .ret (s.fs.mkdirFn parent (nm.take len), s,
            tr ++ tr2 ++ [.dcall .dmkdir parent, .vput parent])

/-- Embedding of do_rmdir().  Rejects "." with -EINVAL and ".." with
-ENOTEMPTY, checks the rmdir operation is present, invokes it, and releases
the parent reference afterwards. -/
def do_rmdir (s : SysState) (path : List Char) : Res (Int × SysState × List VEvent) :=
  if path.length > MAXPATHLEN then .ret (-ENAMETOOLONG, s, [])
  else
    match dir_namev s path none with
    | .crash => .crash
    | .ret (.error e, tr) => .ret (e, s, tr)
    | .ret (.ok (parent, nm, len), tr) =>
      if len > NAME_LEN then .ret (-ENAMETOOLONG, s, tr ++ [.vput parent])
      else if !S_ISDIR ((s.vn parent).vn_mode) then .ret (-ENOTDIR, s, tr ++ [.vput parent])
      else if nm = ['.'] then .ret (-EINVAL, s, tr ++ [.vput parent])
      else if nm = ['.', '.'] then .ret (-ENOTEMPTY, s, tr ++ [.vput parent])
      else if !(s.vn parent).has_rmdir then .ret (-ENOTDIR, s, tr ++ [.vput parent])
      else
        .ret (s.fs.rmdirFn parent (nm.take len), s,
          tr ++ [.dcall .drmdir parent, .vput parent])

/-- Embedding of do_unlink().  After a successful dir_namev the basename
length check returns -ENAMETOOLONG without releasing the parent reference
(the release is present in the source only as commented-out code).  When
the target is a directory the source returns -EPERM. -/
def do_unlink (s : SysState) (path : List Char) : Res (Int × SysState × List VEvent) :=
  if path.length > MAXPATHLEN then .ret (-ENAMETOOLONG, s, [])
  else
    match dir_namev s path none with
    | .crash => .crash
    | .ret (.error e, tr) => .ret (e, s, tr)
    | .ret (.ok (parent, nm, len), tr) =>
      if len > NAME_LEN then .ret (-ENAMETOOLONG, s, tr)
      else
        match lookup s parent nm len with
        | .crash => .crash
        | .ret (.error e, tr2) => .ret (e, s, tr ++ tr2 ++ [.vput parent])
        | .ret (.ok r, tr2) =>
          if S_ISDIR ((s.vn r).vn_mode) then
            .ret (-EPERM, s, tr ++ tr2 ++ [.vput parent, .vput r])
          else
            .ret (s.fs.unlinkFn parent (nm.take len), s,
              tr ++ tr2 ++ [.dcall .dunlink parent, .vput parent, .vput r])

/-- Embedding of do_link().  Resolves the existing source via open_namev,
the destination parent via dir_namev, probes the destination basename for
existence, checks the link operation is present, and invokes it. -/
def do_link (s : SysState) (from_ : List Char) (toP : List Char) :
    Res (Int × SysState × List VEvent) :=
  if from_.length > MAXPATHLEN ∨ toP.length > MAXPATHLEN then .ret (-ENAMETOOLONG, s, [])
  else
    match open_namev s from_ 0 none with
    | .crash => .crash
    | .ret (.error e, trA) => .ret (e, s, trA)
    | .ret (.ok fromN, trA) =>
      match dir_namev s toP none with
      | .crash => .crash
      | .ret (.error e, trB) => .ret (e, s, trA ++ trB ++ [.vput fromN])
      | .ret (.ok (toN, nm, len), trB) =>
        match lookup s toN nm len with
        | .crash => .crash
        | .ret (.ok r, tr2) =>
          .ret (-EEXIST, s, trA ++ trB ++ tr2 ++ [.vput fromN, .vput toN, .vput r])
        | .ret (.error _, tr2) =>
          if !(s.vn toN).has_link then
            .ret (-ENOTDIR, s, trA ++ trB ++ tr2 ++ [.vput fromN, .vput toN])
          else
            .ret (s.fs.linkFn fromN toN (nm.take len), s,
              trA ++ trB ++ tr2 ++ [.dcall .dlink toN, .vput fromN, .vput toN])

/-! ## Result projections -/

def resCode : Res (Int × SysState × List VEvent) → Option Int
  | .crash => none
  | .ret (c, _, _) => some c

def resTrace : Res (Int × SysState × List VEvent) → Option (List VEvent)
  | .crash => none
  | .ret (_, _, tr) => some tr

def resSlot : Res (Int × SysState × List VEvent) → Int → Option (Option FileId)
  | .crash, _ => none
  | .ret (_, s, _), fd => some (s.p_files fd)

def resPos : Res (Int × SysState × List VEvent) → FileId → Option Int
  | .crash, _ => none
  | .ret (_, s, _), f => some ((s.files f).f_pos)

/-! ## Specification-side path resolution (for the dir_namev contract)

The following definitions follow the words of the specification, sections
4.1 and 4.2, and are compared with the source embedding above: a path is a
list of components separated by slashes; the basename is the final
component; every earlier component is resolved by single-component lookup;
the basename is not looked up. -/

/-- The components of a path suffix, splitting at every slash. -/
def componentsOf : List Char → List (List Char)
  | [] => [[]]
  | c :: rest =>
    if c = '/' then [] :: componentsOf rest
    else
      match componentsOf rest with
      | [] => [[c]]
      | s :: ss => (c :: s) :: ss

/-- The components that are followed by a slash: all but the last. -/
def segsOf (rest : List Char) : List (List Char) := (componentsOf rest).dropLast

/-- The final component (the basename): empty for a path ending in a slash. -/
def baseOf (rest : List Char) : List Char := ((componentsOf rest).getLast?).getD []

/-- Modelled from the spec (section 4.1): the contract of single-component
lookup, applied to one component in isolation. -/
def specLookup1 (s : SysState) (dir : VnodeId) (seg : List Char) : Except Int VnodeId :=
  if ¬ S_ISDIR ((s.vn dir).vn_mode) = true then .error (-ENOTDIR)
  else if seg.length > NAME_LEN then .error (-ENAMETOOLONG)
  else if seg = [] ∨ seg = ['.'] then .ok dir
  else if ¬ (s.vn dir).has_lookup = true then .error (-ENOTDIR)
  else s.fs.lookupFn dir seg

/-- Modelled from the spec (section 4.2, step 4): resolve a list of
components in order, starting from a directory. -/
def specResolve (s : SysState) : VnodeId → List (List Char) → Except Int VnodeId
  | dir, [] => .ok dir
  | dir, seg :: rest =>
    match specLookup1 s dir seg with
    | .ok d2 => specResolve s d2 rest
    | .error e => .error e

/-- The starting directory dir_namev chooses for a path. -/
def startOfPath (s : SysState) (path : List Char) (base : Option VnodeId) : VnodeId :=
  if path.head? = some '/' then s.vfs_root else base.getD s.p_cwd

/-- The path suffix dir_namev walks: the path with a leading slash consumed. -/
def restOfPath (path : List Char) : List Char :=
  if path.head? = some '/' then path.tail else path

/-- Environment well-formedness, from the specification: directories come
with a driver lookup operation (section 4.1 delegates to it), and driver
lookup satisfies the dot identity (section 8): looking up "." in a
directory yields that directory. -/
def EnvWF (s : SysState) : Prop :=
  ∀ v : VnodeId, S_ISDIR ((s.vn v).vn_mode) = true →
    (s.vn v).has_lookup = true ∧ s.fs.lookupFn v ['.'] = .ok v

/-! ## Concrete demonstration environment

A small filesystem: vnode 0 is the root directory, 1 and 2 are the
directories /a and /a/b, vnode 3 is a regular file; driver lookup resolves
the chain a, b, c and the dot alias.  The process has open files at
descriptors 1 and 3 (and, representing stale adjacent memory, the
out-of-bounds index NFILES reads as occupied). -/

def attrDir : VnAttr :=
  { vn_mode := S_IFDIR, vn_len := 0, has_lookup := true, has_rmdir := true, has_link := true }

def attrReg : VnAttr :=
  { vn_mode := S_IFREG, vn_len := 10, has_lookup := true, has_rmdir := true, has_link := true }

def fsDemo : DriverFS :=
  { lookupFn := fun d nm =>
      if nm = ['.'] then .ok d
      else if d = 0 ∧ nm = ['a'] then .ok 1
      else if d = 1 ∧ nm = ['b'] then .ok 2
      else if d = 2 ∧ nm = ['c'] then .ok 3
      else .error (-ENOENT)
    createFn := fun _ _ => .error (-ENOENT)
    mknodFn := fun _ _ _ _ => 0
    mkdirFn := fun _ _ => 0
    rmdirFn := fun _ _ => 0
    unlinkFn := fun _ _ => 0
    linkFn := fun _ _ _ => 0
    readFn := fun _ _ n => Int.ofNat n
    writeFn := fun _ _ n => Int.ofNat n
    readdirFn := fun _ _ => -2 }

def sDemo : SysState :=
  { vn := fun v => if v ≤ 2 then attrDir else attrReg
    fs := fsDemo
    vfs_root := 0
    p_cwd := 0
    p_files := fun i => if i = 1 then some 0 else if i = 3 then some 1 else
      if i = 32 then some 0 else none
    files := fun f => if f = 1 then { f_mode := 3, f_pos := 0, f_vnode := 0 }
      else { f_mode := 3, f_pos := 0, f_vnode := 3 } }

/-- A directory vnode (id 5) whose operations table has no lookup entry. -/
def attrDirNoLookup : VnAttr :=
  { vn_mode := S_IFDIR, vn_len := 0, has_lookup := false, has_rmdir := true, has_link := true }

def sNoLk : SysState :=
  { vn := fun v => if v = 5 then attrDirNoLookup else attrReg
    fs := fsDemo
    vfs_root := 0
    p_cwd := 0
    p_files := fun _ => none
    files := fun _ => { f_mode := 3, f_pos := 0, f_vnode := 3 } }

/-! ## Claim theorems -/

/-- C1: refcount conservation fails in the source: on the basename-too-long
error exit, do_unlink and do_mknod return -ENAMETOOLONG without releasing
the parent-directory reference obtained from the successful dir_namev — the
trace holds the vref of the root parent and no matching vput, a net
refcount change of +1 on a pure error return. -/
theorem C1_unlink_mknod_parent_leak :
    (resCode (do_unlink sDemo ('/' :: List.replicate 29 'x')) = some (-ENAMETOOLONG) ∧
     resTrace (do_unlink sDemo ('/' :: List.replicate 29 'x')) = some [.vref 0] ∧
     netV [VEvent.vref 0] 0 = 1) ∧
    (resCode (do_mknod sDemo ('/' :: List.replicate 29 'x') S_IFCHR 7) = some (-ENAMETOOLONG) ∧
     resTrace (do_mknod sDemo ('/' :: List.replicate 29 'x') S_IFCHR 7) = some [.vref 0]) := by
  decide

/-- C3: the out-of-range descriptor fd = NFILES is not rejected: the
do_write guard uses fd > NFILES, so fd = NFILES reads the FD table out of
bounds, and when that memory reads as an occupied slot the call proceeds to
the driver and returns the write result instead of -EBADF. -/
theorem C3_out_of_range_fd_reaches_table :
    resCode (do_write sDemo NFILES 4) = some 4 ∧
    resCode (do_write sDemo NFILES 4) ≠ some (-EBADF) ∧
    ¬ NFILES < NFILES := by
  decide

/-- C4: do_dup treats descriptor 0 as an allocation failure: in a state
whose lowest free slot is 0, get_empty_fd returns 0 and do_dup of the valid
descriptor 1 returns -EMFILE even though the table has a free slot. -/
theorem C4_dup_zero_fd_emfile :
    resCode (do_dup sDemo 1) = some (-EMFILE) ∧
    sDemo.p_files 0 = none ∧
    get_empty_fd sDemo = 0 := by
  decide

/-- C5: do_mknod releases the parent reference before the driver call: on
the successful creation path the trace is vref parent, driver lookup probe,
vput parent, driver mknod — the driver mknod operation runs on a parent
whose reference the function has already released. -/
theorem C5_mknod_releases_parent_before_driver :
    resCode (do_mknod sDemo ['/', 'd'] S_IFCHR 7) = some 0 ∧
    resTrace (do_mknod sDemo ['/', 'd'] S_IFCHR 7) =
      some [.vref 0, .dcall .dlookup 0, .vput 0, .dcall .dmknod 0] := by
  decide

/-- C6: do_mkdir invokes the driver mkdir operation without the vfsm
namespace lock: its trace holds no lock or unlock event at all, so the
mutating driver call is not inside a locked window. -/
theorem C6_mkdir_driver_call_without_lock :
    resCode (do_mkdir sDemo ['/', 'd']) = some 0 ∧
    resTrace (do_mkdir sDemo ['/', 'd']) =
      some [.vref 0, .dcall .dlookup 0, .dcall .dmkdir 0, .vput 0] ∧
    mutLocked [VEvent.vref 0, .dcall .dlookup 0, .dcall .dmkdir 0, .vput 0] = false := by
  decide

/-- C7: do_getdent adds the readdir return to f_pos before testing it for
an error: with f_pos = 0 and the driver readdir failing with -2, the call
returns -2 and leaves f_pos = -2, violating f_pos >= 0. -/
theorem C7_getdent_error_corrupts_fpos :
    (sDemo.files 1).f_pos = 0 ∧
    resCode (do_getdent sDemo 3) = some (-2) ∧
    resPos (do_getdent sDemo 3) 1 = some (-2) := by
  decide

/-- C9: looking up a nonempty, non-dot name in a directory whose operations
table lacks the lookup entry fires the KASSERT on vn_ops->lookup (modelled
as a crash) instead of returning -ENOTDIR; the -ENOTDIR return in the
source is dead code behind the assertion. -/
theorem C9_lookup_missing_op_crashes :
    S_ISDIR ((sNoLk.vn 5).vn_mode) = true ∧
    (sNoLk.vn 5).has_lookup = false ∧
    lookup sNoLk 5 ['x'] 1 = .crash := by
  decide

/-- C2: for a valid open descriptor, do_close returns 0, clears the
FD-table slot, and the net open-file refcount change across the call is
exactly one release: the fget it performs is paired with one fput and the
second fput releases the slot-owned reference. -/
theorem C2_close_clears_slot_single_release (s : SysState) (fd : Int) (f : FileId)
    (h0 : 0 ≤ fd) (h1 : fd < NFILES) (h2 : s.p_files fd = some f) :
    do_close s fd = .ret (0, setSlot s fd none, [.fget f, .fput f, .fput f]) ∧
    (setSlot s fd none).p_files fd = none ∧
    netF [VEvent.fget f, .fput f, .fput f] f = -1 := by
  have h1' : fd ≤ 32 := by
    have : fd < 32 := by simpa [NFILES] using h1
    omega
  refine ⟨?_, ?_, ?_⟩
  · unfold do_close
    rw [if_neg, h2]
    simp [NFILES]
    omega
  · simp [setSlot]
  · simp [netF]

theorem C2_witness :
    do_close sDemo 1 = .ret (0, setSlot sDemo 1 none, [.fget 0, .fput 0, .fput 0]) ∧
    (setSlot sDemo 1 none).p_files 1 = none ∧
    netF [VEvent.fget 0, .fput 0, .fput 0] 0 = -1 :=
  C2_close_clears_slot_single_release sDemo 1 0 (by decide) (by decide) (by decide)

/-- C10: resolving the root path succeeds: dir_namev of "/" returns the
root vnode as parent with an empty basename of length 0 and one acquired
reference, and open_namev of "/" with flags 0 returns the root itself via
the empty-name alias case of lookup, the trace netting one reference on the
root for the caller. -/
theorem C10_root_path_resolution (s : SysState)
    (h : S_ISDIR ((s.vn s.vfs_root).vn_mode) = true) :
    dir_namev s ['/'] none = .ret (.ok (s.vfs_root, [], 0), [.vref s.vfs_root]) ∧
    open_namev s ['/'] 0 none =
      .ret (.ok s.vfs_root,
        [.vref s.vfs_root, .lock, .vref s.vfs_root, .vput s.vfs_root, .unlock]) ∧
    netV [VEvent.vref s.vfs_root, .lock, .vref s.vfs_root, .vput s.vfs_root, .unlock]
      s.vfs_root = 1 := by
  have hd : dir_namev s ['/'] none = .ret (.ok (s.vfs_root, [], 0), [.vref s.vfs_root]) := by
    simp [dir_namev, dnLoop, MAXPATHLEN]
  refine ⟨hd, ?_, ?_⟩
  · rw [open_namev, hd]
    simp [h, lookup, NAME_LEN]
  · simp [netV]

theorem C10_witness :
    dir_namev sDemo ['/'] none = .ret (.ok (sDemo.vfs_root, [], 0), [.vref sDemo.vfs_root]) ∧
    open_namev sDemo ['/'] 0 none =
      .ret (.ok sDemo.vfs_root,
        [.vref sDemo.vfs_root, .lock, .vref sDemo.vfs_root, .vput sDemo.vfs_root, .unlock]) ∧
    netV [VEvent.vref sDemo.vfs_root, .lock, .vref sDemo.vfs_root, .vput sDemo.vfs_root,
      .unlock] sDemo.vfs_root = 1 :=
  C10_root_path_resolution sDemo (by decide)

/-! ## Lemmas relating the dir_namev walk to the component decomposition -/

theorem breakSlash_append : ∀ {rest seg rest2 : List Char},
    breakSlash rest = some (seg, rest2) → rest = seg ++ '/' :: rest2 := by
  intro rest
  induction rest with
  | nil => intro seg rest2 h; simp [breakSlash] at h
  | cons c r ih =>
    intro seg rest2 h
    by_cases hc : c = '/'
    · simp [breakSlash, hc] at h
      simp [hc, h.1.symm, h.2]
    · simp [breakSlash, hc] at h
      match hbr : breakSlash r with
      | none => rw [hbr] at h; simp at h
      | some (s2, r2) =>
        rw [hbr] at h
        simp at h
        obtain ⟨hseg, hrest⟩ := h
        have := ih hbr
        subst hrest
        simp [← hseg, this]

theorem componentsOf_ne_nil : ∀ (rest : List Char), componentsOf rest ≠ [] := by
  intro rest
  induction rest with
  | nil => simp [componentsOf]
  | cons c r ih =>
    by_cases hc : c = '/'
    · simp [componentsOf, hc]
    · simp only [componentsOf, if_neg hc]
      match h : componentsOf r with
      | [] => simp
      | s :: ss => simp

theorem breakSlash_none_components : ∀ {rest : List Char},
    breakSlash rest = none → componentsOf rest = [rest] := by
  intro rest
  induction rest with
  | nil => intro _; simp [componentsOf]
  | cons c r ih =>
    intro h
    by_cases hc : c = '/'
    · simp [breakSlash, hc] at h
    · simp [breakSlash, hc] at h
      match hbr : breakSlash r with
      | some (s2, r2) => rw [hbr] at h; simp at h
      | none =>
        have := ih hbr
        simp only [componentsOf, if_neg hc, this]

theorem breakSlash_some_components : ∀ {rest seg rest2 : List Char},
    breakSlash rest = some (seg, rest2) →
    componentsOf rest = seg :: componentsOf rest2 := by
  intro rest
  induction rest with
  | nil => intro seg rest2 h; simp [breakSlash] at h
  | cons c r ih =>
    intro seg rest2 h
    by_cases hc : c = '/'
    · simp [breakSlash, hc] at h
      obtain ⟨hseg, hrest⟩ := h
      subst hrest
      simp [componentsOf, hc, ← hseg]
    · simp [breakSlash, hc] at h
      match hbr : breakSlash r with
      | none => rw [hbr] at h; simp at h
      | some (s2, r2) =>
        rw [hbr] at h
        simp at h
        obtain ⟨hseg, hrest⟩ := h
        subst hrest
        have hr := ih hbr
        simp only [componentsOf, if_neg hc, hr, ← hseg]

theorem segsOf_some {rest seg rest2 : List Char}
    (h : breakSlash rest = some (seg, rest2)) :
    segsOf rest = seg :: segsOf rest2 := by
  unfold segsOf
  rw [breakSlash_some_components h]
  exact List.dropLast_cons_of_ne_nil (componentsOf_ne_nil rest2)

theorem baseOf_some {rest seg rest2 : List Char}
    (h : breakSlash rest = some (seg, rest2)) :
    baseOf rest = baseOf rest2 := by
  unfold baseOf
  rw [breakSlash_some_components h]
  match h2 : componentsOf rest2 with
  | [] => exact absurd h2 (componentsOf_ne_nil rest2)
  | s :: ss => rw [List.getLast?_cons_cons]

theorem segsOf_none {rest : List Char} (h : breakSlash rest = none) :
    segsOf rest = [] := by
  unfold segsOf
  rw [breakSlash_none_components h]
  rfl

theorem baseOf_none {rest : List Char} (h : breakSlash rest = none) :
    baseOf rest = rest := by
  unfold baseOf
  rw [breakSlash_none_components h]
  rfl

theorem specLookup1_ok {s : SysState} {dir : VnodeId} {seg : List Char} {d2 : VnodeId}
    (h : specLookup1 s dir seg = .ok d2) :
    S_ISDIR ((s.vn dir).vn_mode) = true ∧ seg.length ≤ NAME_LEN ∧
      (((seg = [] ∨ seg = ['.']) ∧ d2 = dir) ∨
       (¬(seg = [] ∨ seg = ['.']) ∧ (s.vn dir).has_lookup = true ∧
         s.fs.lookupFn dir seg = .ok d2)) := by
  unfold specLookup1 at h
  by_cases h1 : S_ISDIR ((s.vn dir).vn_mode) = true
  · rw [if_neg (by simp [h1])] at h
    by_cases h2 : seg.length > NAME_LEN
    · rw [if_pos h2] at h; simp at h
    · rw [if_neg h2] at h
      refine ⟨h1, by omega, ?_⟩
      by_cases h3 : seg = [] ∨ seg = ['.']
      · rw [if_pos h3] at h
        simp at h
        exact Or.inl ⟨h3, h.symm⟩
      · rw [if_neg h3] at h
        by_cases h4 : (s.vn dir).has_lookup = true
        · rw [if_neg (by simp [h4])] at h
          exact Or.inr ⟨h3, h4, h⟩
        · rw [if_pos (by simp [h4])] at h; simp at h
  · rw [if_pos (by simp [h1])] at h; simp at h

/-- The list of characters lookup receives from the dir_namev loop is the
segment followed by a slash and the remaining suffix; under the environment
well-formedness assumptions, a component the specification resolves is
resolved identically by the source lookup. -/
theorem lookup_of_spec {s : SysState} {dir d2 : VnodeId} {seg : List Char} (rest2 : List Char)
    (hWF : EnvWF s) (h : specLookup1 s dir seg = .ok d2) :
    ∃ trL, lookup s dir (seg ++ '/' :: rest2) seg.length = .ret (.ok d2, trL) := by
  obtain ⟨hdir, hlen, hcase⟩ := specLookup1_ok h
  have hne : seg ++ '/' :: rest2 ≠ ['.'] := by
    match seg with
    | [] => simp
    | c :: s2 => simp
  have htake : (seg ++ '/' :: rest2).take seg.length = seg := List.take_left seg _
  unfold lookup
  rw [if_neg (by simp [hdir])]
  rw [if_neg (by omega)]
  rcases hcase with ⟨hseg, hd⟩ | ⟨hseg, hlk, hfn⟩
  · rcases hseg with hseg | hseg
    · subst hseg
      rw [if_pos (by simp)]
      exact ⟨_, by rw [hd]⟩
    · subst hseg
      rw [if_neg (by simp [hne])]
      obtain ⟨hlk, hdot⟩ := hWF dir hdir
      rw [if_pos hlk, htake, hdot, hd]
      exact ⟨_, rfl⟩
  · have hlen0 : seg.length ≠ 0 := by
      intro h0
      exact hseg (Or.inl (List.length_eq_zero.mp h0))
    rw [if_neg (by simp [hne, hlen0])]
    rw [if_pos hlk, htake, hfn]
    exact ⟨_, rfl⟩

theorem dnLoop_step (s : SysState) (fuel : Nat) (dir : VnodeId) (c : Char) (r seg rest2 : List Char)
    (hdir : S_ISDIR ((s.vn dir).vn_mode) = true)
    (hbr : breakSlash (c :: r) = some (seg, rest2))
    (hlen : seg.length ≤ NAME_LEN) :
    dnLoop s (fuel + 1) dir (c :: r) =
      match lookup s dir (c :: r) seg.length with
      | .crash => .crash
      | .ret (.error e, tr) => .ret (.error e, tr ++ [.vput dir])
      | .ret (.ok d2, tr) =>
        match dnLoop s fuel d2 rest2 with
        | .crash => .crash
        | .ret (res, tr2) => .ret (res, tr ++ [.vput dir] ++ tr2) := by
  simp only [dnLoop, hdir, hbr, Bool.not_true, Bool.false_eq_true, if_false,
    Nat.not_lt.mpr hlen, if_neg]

/-- The dir_namev loop agrees with the specification-side resolution:
whenever the specification resolves the slash-followed components of a
suffix to a parent P (and, when the basename is nonempty, P is a
directory), the loop returns P together with exactly the suffix after the
last slash as basename, never looking the basename up. -/
theorem dnLoop_of_specResolve (s : SysState) (hWF : EnvWF s) :
    ∀ (fuel : Nat) (rest : List Char) (dir P : VnodeId),
      rest.length < fuel →
      specResolve s dir (segsOf rest) = .ok P →
      (baseOf rest = [] ∨ S_ISDIR ((s.vn P).vn_mode) = true) →
      ∃ tr, dnLoop s fuel dir rest = .ret (.ok (P, baseOf rest), tr) := by
  intro fuel
  induction fuel with
  | zero => intro rest dir P hlen _ _; exact absurd hlen (Nat.not_lt_zero _)
  | succ fuel ih =>
    intro rest dir P hlen hres hbase
    rcases rest with _ | ⟨c, r⟩
    · have hb : breakSlash ([] : List Char) = none := rfl
      rw [segsOf_none hb] at hres
      simp [specResolve] at hres
      subst hres
      rw [baseOf_none hb]
      exact ⟨[], rfl⟩
    · cases hbr : breakSlash (c :: r) with
      | none =>
        rw [segsOf_none hbr] at hres
        simp [specResolve] at hres
        subst hres
        rw [baseOf_none hbr] at hbase ⊢
        have hdir : S_ISDIR ((s.vn dir).vn_mode) = true := by
          rcases hbase with hbase | hbase
          · exact absurd hbase (by simp)
          · exact hbase
        refine ⟨[], ?_⟩
        simp only [dnLoop, hdir, Bool.not_true, Bool.false_eq_true, if_false, hbr]
      | some seg_rest2 =>
        obtain ⟨seg, rest2⟩ := seg_rest2
        rw [segsOf_some hbr] at hres
        unfold specResolve at hres
        cases hsl : specLookup1 s dir seg with
        | error e => rw [hsl] at hres; simp at hres
        | ok d2 =>
          rw [hsl] at hres
          obtain ⟨hdir, hseglen, _⟩ := specLookup1_ok hsl
          have happ : c :: r = seg ++ '/' :: rest2 := breakSlash_append hbr
          have hlenEq : r.length + 1 = seg.length + (rest2.length + 1) := by
            have := congrArg List.length happ
            simpa [List.length_append] using this
          have hlen2 : rest2.length < fuel := by
            simp only [List.length_cons] at hlen
            omega
          have hbase2 : baseOf rest2 = [] ∨ S_ISDIR ((s.vn P).vn_mode) = true := by
            rw [baseOf_some hbr] at hbase
            exact hbase
          obtain ⟨tr2, hdn2⟩ := ih rest2 d2 P hlen2 hres hbase2
          obtain ⟨trL, hlk⟩ := lookup_of_spec rest2 hWF hsl
          rw [← happ] at hlk
          refine ⟨trL ++ [.vput dir] ++ tr2, ?_⟩
          rw [dnLoop_step s fuel dir c r seg rest2 hdir hbr hseglen, hlk]
          simp [hdn2, baseOf_some hbr]

/-- C8: the dir_namev contract.  For every nonempty path within MAXPATHLEN
whose slash-followed components the specification resolves to a parent P
(P being a directory whenever the basename is nonempty, and the driver
environment well-formed), dir_namev returns P as parent together with the
final component as basename and its length; the final component is not
looked up (it does not occur among the resolved components).  A path ending
in a slash yields the directory named by the path and an empty basename. -/
theorem C8_dir_namev_parent_basename (s : SysState) (base : Option VnodeId)
    (p : List Char) (P : VnodeId)
    (hWF : EnvWF s) (hne : p ≠ []) (hlen : p.length ≤ MAXPATHLEN)
    (hres : specResolve s (startOfPath s p base) (segsOf (restOfPath p)) = .ok P)
    (hbase : baseOf (restOfPath p) = [] ∨ S_ISDIR ((s.vn P).vn_mode) = true) :
    ∃ tr, dir_namev s p base =
      .ret (.ok (P, baseOf (restOfPath p), (baseOf (restOfPath p)).length), tr) := by
  obtain ⟨tr0, hdn⟩ := dnLoop_of_specResolve s hWF ((restOfPath p).length + 1)
    (restOfPath p) (startOfPath s p base) P (by omega) hres hbase
  refine ⟨.vref (startOfPath s p base) :: tr0, ?_⟩
  have hlen0 : ¬ p.length = 0 := by simpa [List.length_eq_zero] using hne
  unfold dir_namev
  rw [if_neg (Nat.not_lt.mpr hlen), if_neg hlen0]
  simp only [startOfPath, restOfPath] at hdn ⊢
  rw [hdn]

theorem C8_witness :
    (∃ tr, dir_namev sDemo ['/', 'a', '/', 'b', '/', 'c'] none =
      .ret (.ok (2, ['c'], 1), tr)) ∧
    (∃ tr, dir_namev sDemo ['/', 'a', '/'] none = .ret (.ok (1, [], 0), tr)) := by
  have hWF : EnvWF sDemo := by
    intro v hv
    constructor
    · by_cases h : v ≤ 2 <;> simp [sDemo, attrDir, attrReg, h]
    · simp [sDemo, fsDemo]
  constructor
  · obtain ⟨tr, htr⟩ := C8_dir_namev_parent_basename sDemo none
      ['/', 'a', '/', 'b', '/', 'c'] 2 hWF (by decide) (by decide) (by decide)
      (Or.inr (by decide))
    exact ⟨tr, htr⟩
  · obtain ⟨tr, htr⟩ := C8_dir_namev_parent_basename sDemo none
      ['/', 'a', '/'] 1 hWF (by decide) (by decide) (by decide) (Or.inl (by decide))
    exact ⟨tr, htr⟩
